import Mathlib

/- Verification development for the currency-converter dashboard (src/app.py).

The core under verification: the natural-language conversion-request
parser (`parse_nl_input`, `word_to_currency_code`, `COMMON_CURY`), the
rate-data access layer (`fetch_symbols`, `fetch_latest`,
`fetch_timeseries`, `convert_currency`) and the TTL cache in front of it.

Embedding conventions:
- Python `str` values are embedded as `List Char` (the parser) or
  `String` (response keys); the character classes of the parser regex
  are embedded exactly, including their non-ASCII IGNORECASE members.
- Python `float` amounts and rates are embedded as exact rationals; the
  amounts decided here are small integers, on which `float` is exact.
- HTTP calls are embedded by passing the provider response as an explicit
  argument; `requests` exceptions become `Except` errors.
- Calendar dates are embedded as integer day numbers: `datetime`
  subtraction `(ed - sd).days` on midnight datetimes is exact day
  difference, so the clamp logic only needs day arithmetic.
-/

/-! Character classes, mirroring the character classes of the source regex
`[0-9]`, `[A-Za-z]` (under `re.IGNORECASE`), `\s`, and of `str.upper` /
`str.strip` / `re.sub("[^A-Z]", ...)`, exactly as CPython implements them:
- `[0-9]` matches the ASCII digits only (IGNORECASE does not affect it).
- `[A-Za-z]` under IGNORECASE matches the ASCII letters plus exactly four
  more characters, U+0130 (dotted capital I), U+0131 (dotless i),
  U+017F (long s) and U+212A (Kelvin sign), whose case mappings land in
  the ranges.
- `\s` matches the same characters as `str.isspace` (which is also the
  set `str.strip` removes): U+0009..U+000D, U+001C..U+0020, U+0085,
  U+00A0, U+1680, U+2000..U+200A, U+2028, U+2029, U+202F, U+205F, U+3000.
- in the IGNORECASE literal `(?:to|in)`, the letter `i` also matches
  U+0130 and U+0131; `t`, `o`, `n` match only their two ASCII cases. -/

def isDigitC (c : Char) : Bool := 48 ≤ c.toNat && c.toNat ≤ 57

def isUpperAZ (c : Char) : Bool := 65 ≤ c.toNat && c.toNat ≤ 90

def isLowerAZ (c : Char) : Bool := 97 ≤ c.toNat && c.toNat ≤ 122

/-- The class `[A-Za-z]` under `re.IGNORECASE`: the ASCII letters and the
four extra characters U+0130, U+0131, U+017F, U+212A. -/
def isAlphaC (c : Char) : Bool :=
  isUpperAZ c || isLowerAZ c ||
  c.toNat = 304 || c.toNat = 305 || c.toNat = 383 || c.toNat = 8490

/-- The class `\s` (equivalently the `str.isspace` set used by
`str.strip`). -/
def isSpaceC (c : Char) : Bool :=
  (9 ≤ c.toNat && c.toNat ≤ 13) || (28 ≤ c.toNat && c.toNat ≤ 32) ||
  c.toNat = 133 || c.toNat = 160 || c.toNat = 5760 ||
  (8192 ≤ c.toNat && c.toNat ≤ 8202) || c.toNat = 8232 || c.toNat = 8233 ||
  c.toNat = 8239 || c.toNat = 8287 || c.toNat = 12288

/-- Case-lowering as used by the IGNORECASE comparison of the keyword
letters t, o, i, n: the ASCII upper range lowers by 32, and U+0130 and
U+0131 both compare equal to the letter i (the only non-ASCII characters
matching any of the four keyword letters). -/
def lowerC (c : Char) : Char :=
  if isUpperAZ c then Char.ofNat (c.toNat + 32)
  else if c.toNat = 304 ∨ c.toNat = 305 then Char.ofNat 105
  else c

/-- Upper-casing of one character (`str.upper`) on the characters the
parser can feed it (the regex letter class and its images): the ASCII
lower range raises by 32, U+0131 maps to I, U+017F maps to S, and every
other such character (A-Z, U+0130, U+212A) is fixed. -/
def upperC (c : Char) : Char :=
  if isLowerAZ c then Char.ofNat (c.toNat - 32)
  else if c.toNat = 305 then Char.ofNat 73
  else if c.toNat = 383 then Char.ofNat 83
  else c

/-! Embedding of the source regex search
`re.search(r"([0-9]+(?:\.[0-9]+)?)\s*([A-Za-z]{3,}|[A-Za-z]{3})\s*(?:to|in)\s*([A-Za-z]{3,})", text, re.IGNORECASE)`
(src/app.py line 95) as a specialized backtracking matcher.

Backtracking analysis justifying the specialization (Python `re` uses
leftmost-first, greedy matching with backtracking):
- `[0-9]+`: a digit can never be consumed by the following `(?:\.[0-9]+)?`,
  `\s*` or `[A-Za-z]` constructs, so giving digits back never helps and the
  quantifier deterministically takes the maximal digit run; likewise the
  `[0-9]+` inside the fraction.
- `(?:\.[0-9]+)?`: a leftover `.` can never be consumed by `\s*` or
  `[A-Za-z]`, so the option deterministically matches when a `.` followed
  by a digit is present, and is skipped otherwise.
- each `\s*`: a whitespace char can never be consumed by the following
  letter/keyword construct, so the star deterministically takes the
  maximal whitespace run.
- `[A-Za-z]{3,}|[A-Za-z]{3}`: the second alternative only re-tries length 3,
  already covered by the greedy first alternative, so the group is the
  greedy `{3,}`: it genuinely backtracks, trying lengths from the maximal
  letter run down to 3 ("to"/"in" are letters, so shorter captures can
  expose the keyword: "100 eurtousd" matches with captures eur/usd).
- `(?:to|in)`: the two alternatives are distinct two-char strings, so at a
  fixed position at most one matches.
- the final `[A-Za-z]{3,}` ends the pattern, so greedy = the maximal
  letter run, succeeding iff that run has length at least 3. -/

/-- Matcher stage for the leading numeric capture `([0-9]+(?:\.[0-9]+)?)`:
returns the capture and the rest of the input, or `none` when the input
does not start with a digit. -/
def numSplit (s : List Char) : Option (List Char × List Char) :=
  let ds := s.takeWhile isDigitC
  if ds = [] then none
  else
    match s.dropWhile isDigitC with
    | '.' :: r =>
      let fs := r.takeWhile isDigitC
      if fs = [] then some (ds, '.' :: r)
      else some (ds ++ '.' :: fs, r.dropWhile isDigitC)
    | rest1 => some (ds, rest1)

/-- Matcher stage for `(?:to|in)` under IGNORECASE: consumes the two-char
keyword, returning the rest. -/
def kwMatch (l : List Char) : Option (List Char) :=
  match l with
  | c1 :: c2 :: r =>
    if (lowerC c1 = 't' ∧ lowerC c2 = 'o') ∨ (lowerC c1 = 'i' ∧ lowerC c2 = 'n') then some r
    else none
  | _ => none

/-- Matcher stage for the tail `\s*(?:to|in)\s*([A-Za-z]{3,})`, run from the
position right after the second-group capture: returns the third-group
capture. -/
def afterG2 (rest4 : List Char) : Option (List Char) :=
  match kwMatch (rest4.dropWhile isSpaceC) with
  | none => none
  | some rest6 =>
    let tok3 := (rest6.dropWhile isSpaceC).takeWhile isAlphaC
    if 3 ≤ tok3.length then some tok3 else none

/-- Greedy backtracking for the second group `[A-Za-z]{3,}|[A-Za-z]{3}`:
tries capture lengths `a1, a1 - 1, ..., 3` in order, returning the
second- and third-group captures of the first length for which the rest of
the pattern matches. -/
def tryG2 (rest3 : List Char) : ℕ → Option (List Char × List Char)
  | 0 => none
  | a1 + 1 =>
    if 3 ≤ a1 + 1 then
      match afterG2 (rest3.drop (a1 + 1)) with
      | some tok3 => some (rest3.take (a1 + 1), tok3)
      | none => tryG2 rest3 a1
    else none

/-- Attempt to match the whole pattern at the start of `s`, returning the
three captures (number, first token, second token). -/
def matchAt (s : List Char) : Option (List Char × List Char × List Char) :=
  match numSplit s with
  | none => none
  | some (numCap, rest2) =>
    let rest3 := rest2.dropWhile isSpaceC
    match tryG2 rest3 (rest3.takeWhile isAlphaC).length with
    | none => none
    | some (tok2, tok3) => some (numCap, tok2, tok3)

/-- The `re.search` of src/app.py line 95: tries each start position left to
right and returns the captures of the first position where the pattern
matches. -/
def reSearch : List Char → Option (List Char × List Char × List Char)
  | [] => none
  | c :: rest =>
    match matchAt (c :: rest) with
    | some r => some r
    | none => reSearch rest

/-- The `text.strip()` of src/app.py line 93 (ASCII whitespace). -/
def pyStrip (s : List Char) : List Char :=
  ((s.dropWhile isSpaceC).reverse.dropWhile isSpaceC).reverse

/-- Value of a digit run as a natural number. -/
def digitsVal (l : List Char) : ℕ := l.foldl (fun n c => 10 * n + (c.toNat - 48)) 0

/-- Value of the numeric capture (shape `[0-9]+` or `[0-9]+.[0-9]+`) as an
exact rational; embeds the `float(m.group(1))` of src/app.py line 97. -/
def pyFloat (s : List Char) : ℚ :=
  let ip := s.takeWhile isDigitC
  match s.dropWhile isDigitC with
  | '.' :: fp => (digitsVal ip : ℚ) + (digitsVal fp : ℚ) / (10 : ℚ) ^ fp.length
  | _ => (digitsVal ip : ℚ)

/-- The `COMMON_CURY` dictionary of src/app.py lines 111-120 (insertion
order; keys are distinct, so association-list lookup equals dict lookup). -/
def COMMON_CURY : List (List Char × List Char) :=
  [("DOLLAR".toList, "USD".toList), ("DOLLARS".toList, "USD".toList), ("USD".toList, "USD".toList),
   ("EURO".toList, "EUR".toList), ("EUROS".toList, "EUR".toList), ("EUR".toList, "EUR".toList),
   ("POUND".toList, "GBP".toList), ("POUNDS".toList, "GBP".toList), ("STERLING".toList, "GBP".toList),
   ("GBP".toList, "GBP".toList),
   ("RUPEE".toList, "PKR".toList), ("PKR".toList, "PKR".toList), ("INR".toList, "INR".toList),
   ("YEN".toList, "JPY".toList), ("JPY".toList, "JPY".toList),
   ("YUAN".toList, "CNY".toList), ("RENMINBI".toList, "CNY".toList), ("CNY".toList, "CNY".toList),
   ("SWISS".toList, "CHF".toList), ("FRANC".toList, "CHF".toList), ("CHF".toList, "CHF".toList),
   ("AUD".toList, "AUD".toList), ("CAD".toList, "CAD".toList), ("NZD".toList, "NZD".toList),
   ("SEK".toList, "SEK".toList)]

/-- The `word_to_currency_code` of src/app.py lines 122-130: upper-case the
token, strip non-`[A-Z]` characters, look the result up in `COMMON_CURY`,
else accept it verbatim when it has exactly 3 letters, else `None`. -/
def word_to_currency_code (token : List Char) : Option (List Char) :=
  let tok := (token.map upperC).filter isUpperAZ
  match COMMON_CURY.lookup tok with
  | some c => some c
  | none => if tok.length = 3 then some tok else none

/-- The `ValueError` message of src/app.py line 108. -/
def ERR_MSG : List Char :=
  "Could not parse natural language input. Try format: \x27convert 500 USD to PKR\x27".toList

/-- The `parse_nl_input` of src/app.py lines 83-108: strip the input, run
the regex search; on a match, resolve both upper-cased tokens through
`word_to_currency_code`; if both resolve return them, otherwise fall back
to using the tokens verbatim when both have length 3; otherwise (and on no
match) raise `ValueError` (embedded as `Except.error`). -/
def parse_nl_input (text : List Char) : Except (List Char) (ℚ × List Char × List Char) :=
  match reSearch (pyStrip text) with
  | some (num, g2, g3) =>
    match word_to_currency_code (g2.map upperC), word_to_currency_code (g3.map upperC) with
    | some ac, some bc => .ok (pyFloat num, ac, bc)
    | _, _ =>
      if (g2.map upperC).length = 3 ∧ (g3.map upperC).length = 3 then
        .ok (pyFloat num, g2.map upperC, g3.map upperC)
      else .error ERR_MSG
  | none => .error ERR_MSG

/-- Variant of `parse_nl_input` with the trailing 3-letter fallback branch
(src/app.py lines 106-107) removed; claim C9 states the original is
observationally equal to this variant. -/
def parse_nl_input_no_fallback (text : List Char) : Except (List Char) (ℚ × List Char × List Char) :=
  match reSearch (pyStrip text) with
  | some (num, g2, g3) =>
    match word_to_currency_code (g2.map upperC), word_to_currency_code (g3.map upperC) with
    | some ac, some bc => .ok (pyFloat num, ac, bc)
    | _, _ => .error ERR_MSG
  | none => .error ERR_MSG

/-! Claim C3 describes the search pattern as: a decimal number, optional
whitespace, a currency token of ONE or more letters, MANDATORY whitespace,
the literal "to" or "in" (case-insensitive), MANDATORY whitespace, and a
second currency token of one or more letters. The following matcher
follows the words of the claim (not the source), for comparison with
`reSearch`. With one-or-more-letter tokens bounded by mandatory
whitespace, every quantifier is deterministic (a letter can never be
consumed by `\s+` and vice versa), so no backtracking is needed. -/

/-- Matcher for the pattern of claim C3 at the start of `s`; follows the
words of the claim, not the source. -/
def spec_matchAt (s : List Char) : Option (List Char × List Char × List Char) :=
  match numSplit s with
  | none => none
  | some (numCap, rest2) =>
    let rest3 := rest2.dropWhile isSpaceC
    let tok1 := rest3.takeWhile isAlphaC
    if tok1.length = 0 then none
    else
      let rest4 := rest3.dropWhile isAlphaC
      if (rest4.takeWhile isSpaceC).length = 0 then none
      else
        match kwMatch (rest4.dropWhile isSpaceC) with
        | none => none
        | some rest6 =>
          if (rest6.takeWhile isSpaceC).length = 0 then none
          else
            let tok2 := (rest6.dropWhile isSpaceC).takeWhile isAlphaC
            if tok2.length = 0 then none else some (numCap, tok1, tok2)

/-- Search with the pattern of claim C3 (first match anywhere); follows
the words of the claim, not the source. -/
def spec_search : List Char → Option (List Char × List Char × List Char)
  | [] => none
  | c :: rest =>
    match spec_matchAt (c :: rest) with
    | some r => some r
    | none => spec_search rest

/-! Data-access layer: error kinds and the four remote operations.
`requests.raise_for_status` raises exactly for status codes in [400, 600);
the raised exception is the `provider` error of the embedding. The spec also
names a `ConversionError` that wraps a provider error; the `conversion`
constructor embeds that spec-side notion so claim C5 can be stated — the
source never constructs such a wrapper. -/

inductive AppErr : Type
  | provider (status : ℕ)
  | conversion (inner : AppErr)
deriving DecidableEq

/-- The `res.raise_for_status()` trigger condition of `requests`. -/
def raise_for_status (status : ℕ) : Bool := 400 ≤ status && status < 600

/-- Provider response for the `/symbols` endpoint: HTTP status plus the
optional top-level `symbols` field (code, description). -/
structure SymbolsResponse : Type where
  status : ℕ
  symbols : Option (List (String × String))
deriving DecidableEq

/-- The `fetch_symbols` of src/app.py lines 30-37, with the provider
response passed explicitly: raise on non-success status, otherwise return
`data.get("symbols", {})`. -/
def fetch_symbols (res : SymbolsResponse) : Except AppErr (List (String × String)) :=
  if raise_for_status res.status then .error (.provider res.status)
  else .ok (res.symbols.getD [])

/-- Provider response for the `/latest` endpoint: HTTP status plus the
optional top-level `rates` field (code, rate). -/
structure LatestResponse : Type where
  status : ℕ
  rates : Option (List (String × ℚ))
deriving DecidableEq

/-- The `fetch_latest` of src/app.py lines 39-44, with the provider
response passed explicitly: raise on non-success status, otherwise return
`res.json().get("rates", {})`. -/
def fetch_latest (base : String) (res : LatestResponse) : Except AppErr (List (String × ℚ)) :=
  if raise_for_status res.status then .error (.provider res.status)
  else .ok (res.rates.getD [])

/-- The `MAX_HISTORY_DAYS` constant of src/app.py line 24. -/
def MAX_HISTORY_DAYS : ℤ := 365

/-- Query parameters of the `/timeseries` request, dates as integer day
numbers. -/
structure TSParams : Type where
  start_date : ℤ
  end_date : ℤ
  base : String
  symbols : String
deriving DecidableEq

/-- The range clamp of src/app.py lines 50-54: if `(ed - sd).days` exceeds
`MAX_HISTORY_DAYS`, the start date becomes `ed - MAX_HISTORY_DAYS`,
otherwise it is unchanged; the end date is never altered. -/
def clamp_start (sd ed : ℤ) : ℤ :=
  if MAX_HISTORY_DAYS < ed - sd then ed - MAX_HISTORY_DAYS else sd

/-- The parameter dict built in src/app.py lines 56-61, after the clamp
(the clamp runs before `requests.get` is issued). -/
def timeseries_params (base target : String) (sd ed : ℤ) : TSParams :=
  ⟨clamp_start sd ed, ed, base, target⟩

/-- One row of the timeseries DataFrame: a date key and the rate
`rate_obj.get(target)`, absent (`none`) when the per-date object lacks the
target symbol. -/
structure TSPoint : Type where
  date : String
  rate : Option ℚ
deriving DecidableEq

/-- Order on the per-date entries of the response used by `sorted(...)` in
src/app.py line 67: Python sorts the `(date, rate_obj)` items, and with
the object keys unique the comparison is decided by the date keys alone
(lexicographic on the ISO `YYYY-MM-DD` strings, which is chronological
order for fixed-width ISO dates). -/
def dateLe (p q : String × List (String × ℚ)) : Prop := p.1 ≤ q.1

instance : DecidableRel dateLe := fun p q => inferInstanceAs (Decidable (p.1 ≤ q.1))

instance : IsTotal (String × List (String × ℚ)) dateLe := ⟨fun p q => le_total p.1 q.1⟩

instance : IsTrans (String × List (String × ℚ)) dateLe := ⟨fun _ _ _ h1 h2 => le_trans h1 h2⟩

/-- The response-processing loop of src/app.py lines 66-68: one record per
date key of the `rates` object, in sorted date order, with rate
`rate_obj.get(target)`. -/
def process_timeseries (target : String) (rates : List (String × List (String × ℚ))) :
    List TSPoint :=
  (List.insertionSort dateLe rates).map fun p => ⟨p.1, p.2.lookup target⟩

/-- Provider response for the `/timeseries` endpoint: HTTP status plus the
optional top-level `rates` field (a per-date object of per-symbol rates). -/
structure TSResponse : Type where
  status : ℕ
  rates : Option (List (String × List (String × ℚ)))
deriving DecidableEq

/-- The `fetch_timeseries` of src/app.py lines 46-73, with the provider
response passed explicitly: clamp the range, build the request parameters,
raise on non-success status, and turn `j.get("rates", {})` into the sorted
record list. The returned pair exposes the issued request parameters
alongside the processed rows. -/
def fetch_timeseries (base target : String) (sd ed : ℤ) (res : TSResponse) :
    Except AppErr (TSParams × List TSPoint) :=
  if raise_for_status res.status then .error (.provider res.status)
  else .ok (timeseries_params base target sd ed, process_timeseries target (res.rates.getD []))

/-- Provider response for the `/convert` endpoint: HTTP status, the
optional top-level `result` field, and the rest of the body treated as an
opaque key/value bag. -/
structure ConvertResponse : Type where
  status : ℕ
  result : Option ℚ
  meta : List (String × String)
deriving DecidableEq

/-- The `convert_currency` of src/app.py lines 75-81, with the provider
response passed explicitly: raise on non-success status — the raised
provider error propagates as-is, there is no wrapping try/except —
otherwise return `(j.get("result"), j)`. -/
def convert_currency (amount : ℚ) (base target : String) (res : ConvertResponse) :
    Except AppErr (Option ℚ × ConvertResponse) :=
  if raise_for_status res.status then .error (.provider res.status)
  else .ok (res.result, res)

/-! TTL cache. Modelled from the spec: the caching behaviour is supplied
by the `st.cache_data(ttl=...)` decorators (src/app.py lines 30, 39, 46),
whose semantics live in the streamlit library, not in src/. The spec
describes them: an entry is valid while `now - fetch_timestamp < ttl`;
a valid entry is served with no fetch; otherwise one underlying fetch
runs and its result is stored keyed by the full argument tuple of the call.
The provider is a function of the fetch time so that "the returned value
reflects the new fetch" is expressible. The state is an association list;
a new entry is consed on and `List.lookup` returns the newest entry for a
key, which embeds in-place replacement. -/

structure CacheEntry (α : Type) : Type where
  value : α
  fetched : ℕ
deriving DecidableEq

/-- Lookup-or-fetch for one TTL-cached operation. Returns the value, the
new cache state, and whether an underlying fetch was issued. -/
def cached_call {κ α : Type} [BEq κ] (ttl : ℕ) (provider : ℕ → κ → α)
    (now : ℕ) (key : κ) (st : List (κ × CacheEntry α)) :
    α × List (κ × CacheEntry α) × Bool :=
  match st.lookup key with
  | some e =>
    if now - e.fetched < ttl then (e.value, st, false)
    else (provider now key, (key, ⟨provider now key, now⟩) :: st, true)
  | none => (provider now key, (key, ⟨provider now key, now⟩) :: st, true)

/-- TTL of `fetch_symbols` (src/app.py line 30), in seconds. -/
def SYMBOLS_TTL : ℕ := 60 * 15

/-- TTL of `fetch_latest` (src/app.py line 39), in seconds. -/
def LATEST_TTL : ℕ := 60 * 5

/-- TTL of `fetch_timeseries` (src/app.py line 46), in seconds. -/
def TIMESERIES_TTL : ℕ := 60 * 60

/-- Cache effect of the `refresh_btn` handler (src/app.py lines 286-288):
the branch body only displays a success message; no cache-invalidation
call is made, so the cache state is unchanged. -/
def refresh_rates_now {κ α : Type} (st : List (κ × CacheEntry α)) : List (κ × CacheEntry α) := st

instance exceptDecEq {ε α : Type} [DecidableEq ε] [DecidableEq α] : DecidableEq (Except ε α) :=
  fun a b =>
  match a, b with
  | .ok x, .ok y =>
    if h : x = y then isTrue (congrArg Except.ok h) else isFalse fun hh => h (Except.ok.inj hh)
  | .error x, .error y =>
    if h : x = y then isTrue (congrArg Except.error h)
    else isFalse fun hh => h (Except.error.inj hh)
  | .ok _, .error _ => isFalse fun hh => Except.noConfusion hh
  | .error _, .ok _ => isFalse fun hh => Except.noConfusion hh

/-! Shape predicates describing what the regex captures look like; used to
state what a successful search implies about the input. -/

/-- Every character of `l` is ASCII whitespace. -/
def AllSpace (l : List Char) : Prop := ∀ c ∈ l, isSpaceC c

/-- Every character of `l` is an ASCII letter. -/
def AllAlpha (l : List Char) : Prop := ∀ c ∈ l, isAlphaC c

/-- Every character of `l` is an ASCII digit. -/
def AllDigit (l : List Char) : Prop := ∀ c ∈ l, isDigitC c

/-- Shape of the numeric capture: a nonempty digit run, optionally
followed by a point and a nonempty digit run. -/
def NumShape (l : List Char) : Prop :=
  (l ≠ [] ∧ AllDigit l) ∨
  ∃ ip fp, l = ip ++ '.' :: fp ∧ ip ≠ [] ∧ fp ≠ [] ∧ AllDigit ip ∧ AllDigit fp

/-- Shape of the keyword: case-insensitively the word "to" or "in". -/
def KwShape (l : List Char) : Prop := l.map lowerC = "to".toList ∨ l.map lowerC = "in".toList
/-- Round-trip of `Char.ofNat` on valid code points. -/
theorem charOfNat_toNat {n : ℕ} (h : n < 55296) : (Char.ofNat n).toNat = n := by
  unfold Char.ofNat
  rw [dif_pos (Or.inl h)]
  rfl

/-- Unfolding of `isUpperAZ` to a proposition on the code point. -/
theorem isUpperAZ_iff {c : Char} : isUpperAZ c = true ↔ 65 ≤ c.toNat ∧ c.toNat ≤ 90 := by
  simp [isUpperAZ]

/-- Unfolding of `isLowerAZ` to a proposition on the code point. -/
theorem isLowerAZ_iff {c : Char} : isLowerAZ c = true ↔ 97 ≤ c.toNat ∧ c.toNat ≤ 122 := by
  simp [isLowerAZ]

/-- Upper-casing an ASCII letter yields an upper-case ASCII letter. -/
theorem upperC_isUpper {c : Char} (h : (isUpperAZ c || isLowerAZ c) = true) :
    isUpperAZ (upperC c) = true := by
  unfold upperC
  rcases (Bool.or_eq_true _ _).mp h with hu | hl
  · have h1 := isUpperAZ_iff.mp hu
    rw [if_neg (fun hl => by have h2 := isLowerAZ_iff.mp hl; omega),
      if_neg (by omega : ¬c.toNat = 305), if_neg (by omega : ¬c.toNat = 383)]
    exact hu
  · rw [if_pos hl]
    have h2 := isLowerAZ_iff.mp hl
    rw [isUpperAZ_iff, charOfNat_toNat (by omega)]
    omega

/-- An extended-class letter that is ASCII is an ASCII letter: the four
non-ASCII members of the class all have code points at least 304. -/
theorem alpha_ascii {c : Char} (h : isAlphaC c = true) (ha : c.toNat < 128) :
    (isUpperAZ c || isLowerAZ c) = true := by
  simp only [isAlphaC, Bool.or_eq_true, decide_eq_true_eq] at h
  rcases h with ((((hu | hl) | h3) | h3) | h3) | h3
  · simp [hu]
  · simp [hl]
  all_goals omega

/-- Characters of the stripped input come from the input. -/
theorem mem_pyStrip {c : Char} {t : List Char} (h : c ∈ pyStrip t) : c ∈ t := by
  unfold pyStrip at h
  rw [List.mem_reverse] at h
  have h2 := (List.dropWhile_sublist _).mem h
  rw [List.mem_reverse] at h2
  exact (List.dropWhile_sublist _).mem h2

/-- Upper-casing fixes upper-case ASCII letters. -/
theorem upperC_of_isUpper {c : Char} (h : isUpperAZ c = true) : upperC c = c := by
  unfold upperC
  have h1 := isUpperAZ_iff.mp h
  rw [if_neg (fun hl => by have h2 := isLowerAZ_iff.mp hl; omega),
    if_neg (by omega : ¬c.toNat = 305), if_neg (by omega : ¬c.toNat = 383)]

/-- Characters of `l.take n` satisfy `p` when `n` is at most the length of
the maximal `p`-run of `l`. -/
theorem mem_take_of_le_takeWhile {p : Char → Bool} :
    ∀ (l : List Char) (n : ℕ), n ≤ (l.takeWhile p).length → ∀ c ∈ l.take n, p c = true := by
  intro l
  induction l with
  | nil => intro n _ c hc; simp at hc
  | cons x xs ih =>
    intro n hn c hc
    cases n with
    | zero => simp at hc
    | succ m =>
      rw [List.takeWhile_cons] at hn
      cases hp : p x with
      | false => rw [hp] at hn; simp at hn
      | true =>
        rw [hp] at hn
        simp only [if_true, List.length_cons, Nat.succ_le_succ_iff] at hn
        rw [List.take_succ_cons] at hc
        rcases List.mem_cons.mp hc with rfl | hc2
        · exact hp
        · exact ih m hn c hc2

/-- Soundness of the keyword stage: a successful `kwMatch` consumes a
case-insensitive "to" or "in". -/
theorem kwMatch_decomp {l r : List Char} (h : kwMatch l = some r) :
    ∃ kw, l = kw ++ r ∧ KwShape kw := by
  unfold kwMatch at h
  split at h
  next c1 c2 rest =>
    split at h
    next hc =>
      refine ⟨[c1, c2], by simpa using congrArg (fun x => c1 :: c2 :: x) (Option.some.inj h), ?_⟩
      unfold KwShape
      rcases hc with ⟨h1, h2⟩ | ⟨h1, h2⟩
      · left; simp [h1, h2]
      · right; simp [h1, h2]
    next => exact absurd h (by simp)
  next => exact absurd h (by simp)

/-- Soundness of the numeric stage: a successful `numSplit` splits off a
capture of numeric shape. -/
theorem numSplit_decomp {s n rest2 : List Char} (h : numSplit s = some (n, rest2)) :
    s = n ++ rest2 ∧ NumShape n := by
  have hs := List.takeWhile_append_dropWhile isDigitC s
  have hdig : AllDigit (s.takeWhile isDigitC) := fun c hc => List.mem_takeWhile_imp hc
  unfold numSplit at h
  split at h
  next r heq =>
    replace h : (if s.takeWhile isDigitC = [] then none
        else if r.takeWhile isDigitC = [] then some (s.takeWhile isDigitC, '.' :: r)
        else some (s.takeWhile isDigitC ++ '.' :: r.takeWhile isDigitC, r.dropWhile isDigitC)) =
        some (n, rest2) := h
    rw [heq] at hs
    by_cases hds : s.takeWhile isDigitC = []
    · rw [if_pos hds] at h
      exact absurd h (by simp)
    · rw [if_neg hds] at h
      by_cases hfs : r.takeWhile isDigitC = []
      · rw [if_pos hfs] at h
        obtain ⟨rfl, rfl⟩ := Prod.mk.inj (Option.some.inj h)
        exact ⟨hs.symm, Or.inl ⟨hds, hdig⟩⟩
      · rw [if_neg hfs] at h
        obtain ⟨rfl, rfl⟩ := Prod.mk.inj (Option.some.inj h)
        constructor
        · have hr := List.takeWhile_append_dropWhile isDigitC r
          conv_lhs => rw [← hs, ← hr]
          simp
        · exact Or.inr ⟨s.takeWhile isDigitC, r.takeWhile isDigitC, rfl, hds, hfs, hdig,
            fun c hc => List.mem_takeWhile_imp hc⟩
  next hne =>
    replace h : (if s.takeWhile isDigitC = [] then none
        else some (s.takeWhile isDigitC, s.dropWhile isDigitC)) = some (n, rest2) := h
    by_cases hds : s.takeWhile isDigitC = []
    · rw [if_pos hds] at h
      exact absurd h (by simp)
    · rw [if_neg hds] at h
      obtain ⟨rfl, rfl⟩ := Prod.mk.inj (Option.some.inj h)
      exact ⟨hs.symm, Or.inl ⟨hds, hdig⟩⟩

/-- The maximal `p`-run of `l` is no longer than `l`. -/
theorem takeWhile_length_le {p : Char → Bool} (l : List Char) :
    (l.takeWhile p).length ≤ l.length := (List.takeWhile_sublist p).length_le

/-- Soundness of the pattern tail: a successful `afterG2` decomposes its
input as whitespace, keyword, whitespace, a letter token of length at
least 3, and a remainder. -/
theorem afterG2_decomp {r4 t3 : List Char} (h : afterG2 r4 = some t3) :
    ∃ ws2 kw ws3 post, r4 = ws2 ++ kw ++ ws3 ++ t3 ++ post ∧
      AllSpace ws2 ∧ KwShape kw ∧ AllSpace ws3 ∧ AllAlpha t3 ∧ 3 ≤ t3.length := by
  unfold afterG2 at h
  split at h
  next => exact absurd h (by simp)
  next rest6 hkw =>
    replace h : (if 3 ≤ ((rest6.dropWhile isSpaceC).takeWhile isAlphaC).length
        then some ((rest6.dropWhile isSpaceC).takeWhile isAlphaC) else none) = some t3 := h
    by_cases hlen : 3 ≤ ((rest6.dropWhile isSpaceC).takeWhile isAlphaC).length
    · rw [if_pos hlen] at h
      obtain rfl := Option.some.inj h
      obtain ⟨kw, hkweq, hkws⟩ := kwMatch_decomp hkw
      refine ⟨r4.takeWhile isSpaceC, kw, rest6.takeWhile isSpaceC,
        (rest6.dropWhile isSpaceC).dropWhile isAlphaC, ?_,
        fun c hc => List.mem_takeWhile_imp hc, hkws,
        fun c hc => List.mem_takeWhile_imp hc,
        fun c hc => List.mem_takeWhile_imp hc, hlen⟩
      conv_lhs => rw [← List.takeWhile_append_dropWhile isSpaceC r4, hkweq,
        ← List.takeWhile_append_dropWhile isSpaceC rest6,
        ← List.takeWhile_append_dropWhile isAlphaC (rest6.dropWhile isSpaceC)]
      simp
    · rw [if_neg hlen] at h
      exact absurd h (by simp)

/-- Soundness of the second-group backtracking: a success picks a capture
length between 3 and the tried maximum and hands the rest to `afterG2`. -/
theorem tryG2_decomp {r t2 t3 : List Char} :
    ∀ {k : ℕ}, tryG2 r k = some (t2, t3) →
      ∃ a1, 3 ≤ a1 ∧ a1 ≤ k ∧ t2 = r.take a1 ∧ afterG2 (r.drop a1) = some t3 := by
  intro k
  induction k with
  | zero => intro h; exact absurd h (by simp [tryG2])
  | succ m ih =>
    intro h
    simp only [tryG2] at h
    split at h
    next h3 =>
      split at h
      next tok3 hafter =>
        have h2 := Option.some.inj h
        obtain ⟨rfl, rfl⟩ := Prod.mk.inj h2
        exact ⟨m + 1, h3, le_refl _, rfl, hafter⟩
      next hafter =>
        obtain ⟨a1, ha3, hak, ht2, haft⟩ := ih h
        exact ⟨a1, ha3, Nat.le_succ_of_le hak, ht2, haft⟩
    next => exact absurd h (by simp)

/-- Soundness of `matchAt`: a successful match decomposes the input into
the number capture, optional whitespace, a letter token of length at
least 3, optional whitespace, the keyword, optional whitespace, a second
letter token of length at least 3, and a remainder. -/
theorem matchAt_decomp {s n a b : List Char} (h : matchAt s = some (n, a, b)) :
    ∃ ws1 ws2 kw ws3 post,
      s = n ++ ws1 ++ a ++ ws2 ++ kw ++ ws3 ++ b ++ post ∧
      NumShape n ∧ AllSpace ws1 ∧ AllAlpha a ∧ 3 ≤ a.length ∧
      AllSpace ws2 ∧ KwShape kw ∧ AllSpace ws3 ∧ AllAlpha b ∧ 3 ≤ b.length := by
  unfold matchAt at h
  split at h
  next => exact absurd h (by simp)
  next numCap rest2 hnum =>
    replace h : (match tryG2 (rest2.dropWhile isSpaceC)
        ((rest2.dropWhile isSpaceC).takeWhile isAlphaC).length with
      | none => none
      | some (tok2, tok3) => some (numCap, tok2, tok3)) = some (n, a, b) := h
    split at h
    next => exact absurd h (by simp)
    next tok2 tok3 htry =>
      have h2 := Option.some.inj h
      obtain ⟨rfl, h3⟩ := Prod.mk.inj h2
      obtain ⟨rfl, rfl⟩ := Prod.mk.inj h3
      obtain ⟨hseq, hnshape⟩ := numSplit_decomp hnum
      obtain ⟨a1, ha3, hak, ht2, haft⟩ := tryG2_decomp htry
      obtain ⟨ws2, kw, ws3, post, hdeq, hws2, hkw, hws3, halpha3, hlen3⟩ := afterG2_decomp haft
      have halen : a1 ≤ (rest2.dropWhile isSpaceC).length :=
        le_trans hak (takeWhile_length_le _)
      refine ⟨rest2.takeWhile isSpaceC, ws2, kw, ws3, post, ?_, hnshape,
        fun c hc => List.mem_takeWhile_imp hc, ?_, ?_, hws2, hkw, hws3, halpha3, hlen3⟩
      · conv_lhs => rw [hseq, ← List.takeWhile_append_dropWhile isSpaceC rest2,
          ← List.take_append_drop a1 (rest2.dropWhile isSpaceC), hdeq]
        rw [← ht2]
        simp
      · rw [ht2]
        exact fun c hc => mem_take_of_le_takeWhile _ a1 hak c hc
      · rw [ht2, List.length_take]
        omega

/-- Soundness of `reSearch`: a successful search decomposes the input into
an ignored head, the match of `matchAt`, and an ignored tail. -/
theorem reSearch_decomp {n a b : List Char} :
    ∀ {t : List Char}, reSearch t = some (n, a, b) →
      ∃ pre ws1 ws2 kw ws3 post,
        t = pre ++ n ++ ws1 ++ a ++ ws2 ++ kw ++ ws3 ++ b ++ post ∧
        NumShape n ∧ AllSpace ws1 ∧ AllAlpha a ∧ 3 ≤ a.length ∧
        AllSpace ws2 ∧ KwShape kw ∧ AllSpace ws3 ∧ AllAlpha b ∧ 3 ≤ b.length := by
  intro t
  induction t with
  | nil => intro h; exact absurd h (by simp [reSearch])
  | cons c rest ih =>
    intro h
    simp only [reSearch] at h
    split at h
    next r hmat =>
      obtain rfl := Option.some.inj h
      obtain ⟨ws1, ws2, kw, ws3, post, heq, hrest⟩ := matchAt_decomp hmat
      exact ⟨[], ws1, ws2, kw, ws3, post, by simpa using heq, hrest⟩
    next hmat =>
      obtain ⟨pre, ws1, ws2, kw, ws3, post, heq, hrest⟩ := ih h
      exact ⟨c :: pre, ws1, ws2, kw, ws3, post, by simp [heq], hrest⟩

/-- The token captures of a successful search are all-letter strings. -/
theorem reSearch_alpha {t n a b : List Char} (h : reSearch t = some (n, a, b)) :
    AllAlpha a ∧ AllAlpha b := by
  obtain ⟨_, _, _, _, _, _, _, _, _, ha, _, _, _, _, hb, _⟩ := reSearch_decomp h
  exact ⟨ha, hb⟩

/-- Upper-casing is idempotent on ASCII all-letter strings. -/
theorem upperC_map_upperC {g : List Char} (hg : ∀ c ∈ g, (isUpperAZ c || isLowerAZ c) = true) :
    (g.map upperC).map upperC = g.map upperC := by
  rw [List.map_map]
  refine List.map_congr_left fun c hc => ?_
  simp only [Function.comp]
  exact upperC_of_isUpper (upperC_isUpper (hg c hc))

/-- When `word_to_currency_code` rejects an upper-cased ASCII all-letter
token, that token does not have length 3 (the stripping step is the
identity on such tokens, so rejection means: not in the dictionary and
length not 3). This is ASCII-specific: on the non-ASCII class letters
U+0130 and U+212A, upper-casing is the identity but the `[^A-Z]` strip
removes them, which is exactly what makes the fallback branch reachable
(claim C9). -/
theorem w2c_none_length {g : List Char} (hg : ∀ c ∈ g, (isUpperAZ c || isLowerAZ c) = true)
    (h : word_to_currency_code (g.map upperC) = none) : (g.map upperC).length ≠ 3 := by
  have hupper : ∀ c ∈ g.map upperC, isUpperAZ c = true := by
    intro c hc
    obtain ⟨d, hd, rfl⟩ := List.mem_map.mp hc
    exact upperC_isUpper (hg d hd)
  unfold word_to_currency_code at h
  have htok : ((g.map upperC).map upperC).filter isUpperAZ = g.map upperC := by
    rw [upperC_map_upperC hg]
    exact List.filter_eq_self.mpr hupper
  rw [htok] at h
  replace h : (match List.lookup (List.map upperC g) COMMON_CURY with
    | some c => some c
    | none => if (List.map upperC g).length = 3 then some (List.map upperC g) else none) =
    none := h
  split at h
  next => exact absurd h (by simp)
  next =>
    by_cases hl : (g.map upperC).length = 3
    · rw [if_pos hl] at h
      exact absurd h (by simp)
    · exact hl

/-- The numeric capture value is never negative: the capture admits no
sign. -/
theorem pyFloat_nonneg (s : List Char) : 0 ≤ pyFloat s := by
  unfold pyFloat
  split
  · positivity
  · positivity

/-- C8: the parser returns exactly the specified example results:
`parse("convert 500 USD to PKR")` is `(500.0, "USD", "PKR")`,
`parse("1000 eur in usd")` is `(1000.0, "EUR", "USD")`, and
`parse("2500 pounds to usd")` is `(2500.0, "GBP", "USD")`, the last via
the `COMMON_CURY` entry mapping "POUNDS" to GBP. -/
theorem c8_parser_examples :
    parse_nl_input ("convert 500 USD to PKR".toList) = .ok (500, "USD".toList, "PKR".toList) ∧
    parse_nl_input ("1000 eur in usd".toList) = .ok (1000, "EUR".toList, "USD".toList) ∧
    parse_nl_input ("2500 pounds to usd".toList) = .ok (2500, "GBP".toList, "USD".toList) ∧
    COMMON_CURY.lookup ("POUNDS".toList) = some ("GBP".toList) ∧
    word_to_currency_code ("POUNDS".toList) = some ("GBP".toList) := by
  refine ⟨?_, ?_, ?_, ?_, ?_⟩ <;> decide

/-- C10: the numeric capture admits no sign, so every amount the parser
returns is non-negative; in particular "-500 usd to eur" parses
successfully to `(500.0, "USD", "EUR")` — the leading minus sign is
skipped over, producing neither a negative amount nor a ParseError. -/
theorem c10_amount_nonneg :
    parse_nl_input ("-500 usd to eur".toList) = .ok (500, "USD".toList, "EUR".toList) ∧
    ∀ text amt a b, parse_nl_input text = .ok (amt, a, b) → 0 ≤ amt := by
  constructor
  · decide
  · intro text amt a b h
    unfold parse_nl_input at h
    split at h
    next num g2 g3 hsearch =>
      split at h
      next =>
        obtain ⟨h1, _⟩ := Prod.mk.inj (Except.ok.inj h)
        rw [← h1]
        exact pyFloat_nonneg num
      next =>
        split at h
        next =>
          obtain ⟨h1, _⟩ := Prod.mk.inj (Except.ok.inj h)
          rw [← h1]
          exact pyFloat_nonneg num
        next => exact absurd h (by simp)
    next => exact absurd h (by simp)

/-- C9 counterexample: the trailing 3-letter fallback branch of
`parse_nl_input` (src/app.py lines 106-107) is reachable, so the claimed
observational equality with the no-fallback variant is false. On the
input "100 Kab to xyz" whose first token starts with U+212A (Kelvin
sign) — matched by `[A-Za-z]` under IGNORECASE, fixed by `str.upper`,
but stripped by the `[^A-Z]` substitution — `word_to_currency_code`
returns `none` for the 3-character token "KAB", the fallback fires, and
the parser returns (100, "KAB", "XYZ"); the variant without the fallback
fails with ParseError. -/
theorem c9_fallback_counterexample :
    parse_nl_input ("100 \u212Aab to xyz".toList) =
      .ok (100, "\u212AAB".toList, "XYZ".toList) ∧
    parse_nl_input_no_fallback ("100 \u212Aab to xyz".toList) = .error ERR_MSG ∧
    parse_nl_input ("100 \u212Aab to xyz".toList) ≠
      parse_nl_input_no_fallback ("100 \u212Aab to xyz".toList) := by
  refine ⟨by decide, by decide, by decide⟩

/-- C9 amended: the fallback branch is unreachable on ASCII inputs: for
every input containing only ASCII characters, `parse_nl_input` is
observationally equal to the variant without the fallback branch,
because an ASCII all-letter token on which `word_to_currency_code`
returns `none` never has length 3 — on such inputs success occurs only
when both tokens resolve through `word_to_currency_code`. (The branch is
reachable only through the non-ASCII letters U+0130 and U+212A of the
IGNORECASE class, which upper-casing fixes but the `[^A-Z]` strip
removes.) -/
theorem c9_fallback_unreachable_ascii :
    ∀ text : List Char, (∀ c ∈ text, c.toNat < 128) →
      parse_nl_input text = parse_nl_input_no_fallback text := by
  intro text hascii
  unfold parse_nl_input parse_nl_input_no_fallback
  cases hsearch : reSearch (pyStrip text) with
  | none => rfl
  | some r =>
    obtain ⟨num, g2, g3⟩ := r
    obtain ⟨pre, ws1, ws2, kw, ws3, post, heq, _, _, ha2, _, _, _, _, ha3, _⟩ :=
      reSearch_decomp hsearch
    have hga : ∀ c ∈ g2, (isUpperAZ c || isLowerAZ c) = true := by
      intro c hc
      refine alpha_ascii (ha2 c hc) (hascii c (mem_pyStrip ?_))
      rw [heq]
      simp [hc]
    have hgb : ∀ c ∈ g3, (isUpperAZ c || isLowerAZ c) = true := by
      intro c hc
      refine alpha_ascii (ha3 c hc) (hascii c (mem_pyStrip ?_))
      rw [heq]
      simp [hc]
    dsimp only
    cases hwa : word_to_currency_code (g2.map upperC) with
    | some ac =>
      cases hwb : word_to_currency_code (g3.map upperC) with
      | some bc => rfl
      | none =>
        have hlb := w2c_none_length hgb hwb
        exact if_neg (fun hc => hlb hc.2)
    | none =>
      have hla := w2c_none_length hga hwa
      cases hwb : word_to_currency_code (g3.map upperC) with
      | some bc => exact if_neg (fun hc => hla hc.1)
      | none => exact if_neg (fun hc => hla hc.1)

/-- Witness for C9 amended at the ASCII input "12 abcd to efgh", on which
the fallback condition is actually tested (both tokens fail to resolve)
and both parser variants agree. -/
theorem c9_fallback_unreachable_ascii_witness :
    (∀ c ∈ "12 abcd to efgh".toList, c.toNat < 128) ∧
    parse_nl_input ("12 abcd to efgh".toList) =
      parse_nl_input_no_fallback ("12 abcd to efgh".toList) :=
  ⟨by decide, c9_fallback_unreachable_ascii ("12 abcd to efgh".toList) (by decide)⟩

/-- Witness for C10 at the concrete input "-500 usd to eur". -/
theorem c10_amount_nonneg_witness :
    parse_nl_input ("-500 usd to eur".toList) = .ok (500, "USD".toList, "EUR".toList) ∧
    (0 : ℚ) ≤ 500 :=
  ⟨c10_amount_nonneg.1,
   c10_amount_nonneg.2 ("-500 usd to eur".toList) 500 ("USD".toList) ("EUR".toList)
     c10_amount_nonneg.1⟩

/-- C3 counterexample: on the input "500 eurto usd" the pattern exactly as
the claim words it (tokens of one or more letters, mandatory whitespace
around the keyword — `spec_search`) has no match, so under the claim the
parser would fail with ParseError; the code parses it successfully to
`(500, "EUR", "USD")`, because the source regex requires no whitespace
around "to"/"in" and backtracks the 3-or-more-letter token. -/
theorem c3_pattern_counterexample :
    spec_search (pyStrip ("500 eurto usd".toList)) = none ∧
    parse_nl_input ("500 eurto usd".toList) = .ok (500, "EUR".toList, "USD".toList) := by
  constructor
  · decide
  · decide

/-- C3 amended: the parser searches (does not anchor) for a decimal
number, optional whitespace, a currency token of THREE or more letters,
OPTIONAL whitespace, the literal "to" or "in" (case-insensitive),
OPTIONAL whitespace, and a second currency token of three or more
letters; a successful search decomposes the stripped input accordingly
(text before and after the match is ignored), and an input containing no
such match fails with the ParseError message. -/
theorem c3_pattern_amended :
    ∀ text : List Char,
      (∀ n a b, reSearch (pyStrip text) = some (n, a, b) →
        ∃ pre ws1 ws2 kw ws3 post,
          pyStrip text = pre ++ n ++ ws1 ++ a ++ ws2 ++ kw ++ ws3 ++ b ++ post ∧
          NumShape n ∧ AllSpace ws1 ∧ AllAlpha a ∧ 3 ≤ a.length ∧
          AllSpace ws2 ∧ KwShape kw ∧ AllSpace ws3 ∧ AllAlpha b ∧ 3 ≤ b.length) ∧
      (reSearch (pyStrip text) = none → parse_nl_input text = .error ERR_MSG) := by
  intro text
  constructor
  · intro n a b h
    exact reSearch_decomp h
  · intro h
    unfold parse_nl_input
    rw [h]

/-- Witness for C3 amended: the no-match branch at "hello world" and the
decomposition branch at "x 12 usd to pkr yz". -/
theorem c3_pattern_witness :
    (reSearch (pyStrip ("hello world".toList)) = none ∧
      parse_nl_input ("hello world".toList) = .error ERR_MSG) ∧
    (reSearch (pyStrip ("x 12 usd to pkr yz".toList)) =
        some ("12".toList, "usd".toList, "pkr".toList) ∧
      ∃ pre ws1 ws2 kw ws3 post,
        pyStrip ("x 12 usd to pkr yz".toList) =
          pre ++ "12".toList ++ ws1 ++ "usd".toList ++ ws2 ++ kw ++ ws3 ++ "pkr".toList ++ post ∧
        NumShape "12".toList ∧ AllSpace ws1 ∧ AllAlpha "usd".toList ∧ 3 ≤ "usd".toList.length ∧
        AllSpace ws2 ∧ KwShape kw ∧ AllSpace ws3 ∧ AllAlpha "pkr".toList ∧
        3 ≤ "pkr".toList.length) :=
  ⟨⟨by decide, (c3_pattern_amended ("hello world".toList)).2 (by decide)⟩,
   ⟨by decide,
    (c3_pattern_amended ("x 12 usd to pkr yz".toList)).1 ("12".toList) ("usd".toList)
      ("pkr".toList) (by decide)⟩⟩

/-- C2 counterexample: with a success HTTP status (200) and a body missing
the expected top-level field, all three fetch operations return
successfully (empty mapping / empty series) instead of failing with a
ProviderError, contradicting the claim. -/
theorem c2_missing_field_counterexample :
    fetch_symbols ⟨200, none⟩ = .ok [] ∧
    fetch_latest "USD" ⟨200, none⟩ = .ok [] ∧
    fetch_timeseries "USD" "EUR" 0 10 ⟨200, none⟩ =
      .ok (timeseries_params "USD" "EUR" 0 10, []) := by
  refine ⟨rfl, rfl, rfl⟩

/-- C2 amended: on a success HTTP status with the expected top-level field
missing, each operation returns an empty mapping (empty series for the
timeseries) successfully; when the field is present its value is
returned; a ProviderError arises exactly from `raise_for_status`, on an
HTTP status in [400, 600). -/
theorem c2_missing_field_amended :
    (∀ res : SymbolsResponse, res.status < 400 → res.symbols = none →
      fetch_symbols res = .ok []) ∧
    (∀ (res : SymbolsResponse) m, res.status < 400 → res.symbols = some m →
      fetch_symbols res = .ok m) ∧
    (∀ res : SymbolsResponse, 400 ≤ res.status → res.status < 600 →
      fetch_symbols res = .error (.provider res.status)) ∧
    (∀ base (res : LatestResponse), res.status < 400 → res.rates = none →
      fetch_latest base res = .ok []) ∧
    (∀ base (res : LatestResponse) m, res.status < 400 → res.rates = some m →
      fetch_latest base res = .ok m) ∧
    (∀ base (res : LatestResponse), 400 ≤ res.status → res.status < 600 →
      fetch_latest base res = .error (.provider res.status)) ∧
    (∀ base target sd ed (res : TSResponse), res.status < 400 → res.rates = none →
      fetch_timeseries base target sd ed res = .ok (timeseries_params base target sd ed, [])) ∧
    (∀ base target sd ed (res : TSResponse), 400 ≤ res.status → res.status < 600 →
      fetch_timeseries base target sd ed res = .error (.provider res.status)) := by
  refine ⟨?_, ?_, ?_, ?_, ?_, ?_, ?_, ?_⟩
  · intro res h hn
    unfold fetch_symbols
    rw [if_neg (by simp [raise_for_status]; omega), hn]
    rfl
  · intro res m h hm
    unfold fetch_symbols
    rw [if_neg (by simp [raise_for_status]; omega), hm]
    rfl
  · intro res h1 h2
    unfold fetch_symbols
    rw [if_pos (by simp [raise_for_status]; omega)]
  · intro base res h hn
    unfold fetch_latest
    rw [if_neg (by simp [raise_for_status]; omega), hn]
    rfl
  · intro base res m h hm
    unfold fetch_latest
    rw [if_neg (by simp [raise_for_status]; omega), hm]
    rfl
  · intro base res h1 h2
    unfold fetch_latest
    rw [if_pos (by simp [raise_for_status]; omega)]
  · intro base target sd ed res h hn
    unfold fetch_timeseries
    rw [if_neg (by simp [raise_for_status]; omega), hn]
    rfl
  · intro base target sd ed res h1 h2
    unfold fetch_timeseries
    rw [if_pos (by simp [raise_for_status]; omega)]

/-- Witness for C2 amended at concrete responses. -/
theorem c2_missing_field_witness :
    ((200 : ℕ) < 400 ∧ fetch_symbols ⟨200, none⟩ = .ok []) ∧
    (fetch_symbols ⟨200, some [("USD", "United States Dollar")]⟩ =
      .ok [("USD", "United States Dollar")]) ∧
    (400 ≤ (503 : ℕ) ∧ (503 : ℕ) < 600 ∧ fetch_symbols ⟨503, none⟩ = .error (.provider 503)) ∧
    (fetch_latest "USD" ⟨200, none⟩ = .ok []) ∧
    (fetch_latest "USD" ⟨503, none⟩ = .error (.provider 503)) ∧
    (fetch_timeseries "USD" "EUR" 0 10 ⟨200, none⟩ =
      .ok (timeseries_params "USD" "EUR" 0 10, [])) ∧
    (fetch_timeseries "USD" "EUR" 0 10 ⟨503, none⟩ = .error (.provider 503)) :=
  ⟨⟨by decide, c2_missing_field_amended.1 ⟨200, none⟩ (by decide) rfl⟩,
   c2_missing_field_amended.2.1 ⟨200, some [("USD", "United States Dollar")]⟩ _ (by decide) rfl,
   ⟨by decide, by decide, c2_missing_field_amended.2.2.1 ⟨503, none⟩ (by decide) (by decide)⟩,
   c2_missing_field_amended.2.2.2.1 "USD" ⟨200, none⟩ (by decide) rfl,
   c2_missing_field_amended.2.2.2.2.2.1 "USD" ⟨503, none⟩ (by decide) (by decide),
   c2_missing_field_amended.2.2.2.2.2.2.1 "USD" "EUR" 0 10 ⟨200, none⟩ (by decide) rfl,
   c2_missing_field_amended.2.2.2.2.2.2.2 "USD" "EUR" 0 10 ⟨503, none⟩ (by decide) (by decide)⟩

/-- C4: for every historical query with startDate at most endDate — if the
span exceeds 365 days the request is issued with startDate replaced by
endDate - 365 and endDate unchanged; otherwise both dates pass through
unchanged. `timeseries_params` is computed before the network call is
issued. -/
theorem c4_range_clamp :
    ∀ (base target : String) (sd ed : ℤ), sd ≤ ed →
      (365 < ed - sd → timeseries_params base target sd ed = ⟨ed - 365, ed, base, target⟩) ∧
      (ed - sd ≤ 365 → timeseries_params base target sd ed = ⟨sd, ed, base, target⟩) := by
  intro base target sd ed _
  unfold timeseries_params clamp_start MAX_HISTORY_DAYS
  constructor
  · intro h
    rw [if_pos h]
  · intro h
    rw [if_neg (by omega)]

/-- Witness for C4 at spans of 400 and 100 days. -/
theorem c4_range_clamp_witness :
    ((0 : ℤ) ≤ 400 ∧ (365 : ℤ) < 400 - 0 ∧
      timeseries_params "USD" "EUR" 0 400 = ⟨400 - 365, 400, "USD", "EUR"⟩) ∧
    ((0 : ℤ) ≤ 100 ∧ (100 : ℤ) - 0 ≤ 365 ∧
      timeseries_params "USD" "EUR" 0 100 = ⟨0, 100, "USD", "EUR"⟩) :=
  ⟨⟨by decide, by decide, (c4_range_clamp "USD" "EUR" 0 400 (by decide)).1 (by decide)⟩,
   ⟨by decide, by decide, (c4_range_clamp "USD" "EUR" 0 100 (by decide)).2 (by decide)⟩⟩

/-- C5 counterexample: on a failing provider response the conversion
operation fails with the provider error itself, not with a
ConversionError wrapping it — the code has no wrapping try/except. -/
theorem c5_error_counterexample :
    convert_currency 100 "USD" "EUR" ⟨500, none, []⟩ = .error (.provider 500) ∧
    convert_currency 100 "USD" "EUR" ⟨500, none, []⟩ ≠ .error (.conversion (.provider 500)) := by
  constructor
  · rfl
  · decide

/-- C5 amended: whenever the underlying provider call of the conversion
operation fails, `convert_currency` fails by propagating that
ProviderError itself — an explicit typed failure, never silently
swallowed; no ConversionError wrapper is ever constructed. -/
theorem c5_error_propagation :
    ∀ (amount : ℚ) (base target : String) (res : ConvertResponse),
      400 ≤ res.status → res.status < 600 →
      convert_currency amount base target res = .error (.provider res.status) := by
  intro amount base target res h1 h2
  unfold convert_currency
  rw [if_pos (by simp [raise_for_status]; omega)]

/-- Witness for C5 amended at a 500-status response. -/
theorem c5_error_propagation_witness :
    (400 ≤ (500 : ℕ) ∧ (500 : ℕ) < 600) ∧
    convert_currency 100 "USD" "EUR" ⟨500, none, []⟩ = .error (.provider 500) :=
  ⟨by decide, c5_error_propagation 100 "USD" "EUR" ⟨500, none, []⟩ (by decide) (by decide)⟩

/-- C7: the time-series operation returns one point per date key of the
response (same length, dates a permutation of the keys), ordered
ascending by date string (chronological for fixed-width ISO dates) with
unique dates, and every date key appears as a point whose rate is the
lookup of the target symbol — in particular a date whose per-date object
lacks the target yields a point with an absent rate rather than being
omitted. -/
theorem c7_timeseries_points :
    ∀ (target : String) (rates : List (String × List (String × ℚ))),
      (rates.map Prod.fst).Nodup →
      (process_timeseries target rates).length = rates.length ∧
      ((process_timeseries target rates).map TSPoint.date).Perm (rates.map Prod.fst) ∧
      ((process_timeseries target rates).map TSPoint.date).Sorted (· ≤ ·) ∧
      ((process_timeseries target rates).map TSPoint.date).Nodup ∧
      ∀ d ro, (d, ro) ∈ rates →
        TSPoint.mk d (ro.lookup target) ∈ process_timeseries target rates := by
  intro target rates hnd
  have hperm := List.perm_insertionSort dateLe rates
  have hmap : (process_timeseries target rates).map TSPoint.date =
      (List.insertionSort dateLe rates).map Prod.fst := by
    unfold process_timeseries
    rw [List.map_map]
    rfl
  have hpermmap :
      ((process_timeseries target rates).map TSPoint.date).Perm (rates.map Prod.fst) := by
    rw [hmap]
    exact hperm.map Prod.fst
  refine ⟨?_, hpermmap, ?_, ?_, ?_⟩
  · unfold process_timeseries
    rw [List.length_map, List.length_insertionSort]
  · rw [hmap]
    exact List.Pairwise.map Prod.fst (fun p q hpq => hpq)
      (List.sorted_insertionSort dateLe rates)
  · exact hpermmap.nodup_iff.mpr hnd
  · intro d ro hmem
    unfold process_timeseries
    exact List.mem_map_of_mem _ (hperm.mem_iff.mpr hmem)

/-- Witness for C7: a two-day response given in reverse order, where the
day lacking the target symbol still yields a point (with absent rate). -/
theorem c7_timeseries_points_witness :
    (([("2024-01-02", [("EUR", (2 : ℚ))]), ("2024-01-01", [])].map Prod.fst).Nodup) ∧
    TSPoint.mk "2024-01-01" (([] : List (String × ℚ)).lookup "EUR") ∈
      process_timeseries "EUR" [("2024-01-02", [("EUR", 2)]), ("2024-01-01", [])] :=
  ⟨by decide,
   (c7_timeseries_points "EUR" [("2024-01-02", [("EUR", 2)]), ("2024-01-01", [])]
     (by decide)).2.2.2.2 "2024-01-01" [] (by decide)⟩

/-- C6: the TTLs are 15 minutes (symbols), 5 minutes (latest rates) and 60
minutes (time series, keyed by the full argument tuple); a cached entry
is served without a fetch exactly while `now - fetched < ttl`; a lookup
at or after expiry issues a new fetch and returns the value of the new
fetch (`provider now key`), never the stale entry; and two lookups for the same
key within the TTL issue at most one underlying fetch. -/
theorem c6_cache_ttl :
    (SYMBOLS_TTL = 15 * 60 ∧ LATEST_TTL = 5 * 60 ∧ TIMESERIES_TTL = 60 * 60) ∧
    (∀ (κ α : Type) [BEq κ] (ttl : ℕ) (provider : ℕ → κ → α) (key : κ)
        (st : List (κ × CacheEntry α)) (now : ℕ) (e : CacheEntry α),
      st.lookup key = some e →
      (now - e.fetched < ttl → cached_call ttl provider now key st = (e.value, st, false)) ∧
      (ttl ≤ now - e.fetched →
        cached_call ttl provider now key st =
          (provider now key, (key, ⟨provider now key, now⟩) :: st, true))) ∧
    (∀ (κ α : Type) [BEq κ] [LawfulBEq κ] (ttl : ℕ) (provider : ℕ → κ → α) (key : κ)
        (st : List (κ × CacheEntry α)) (now1 now2 : ℕ),
      now2 - now1 < ttl →
      ¬((cached_call ttl provider now1 key st).2.2 = true ∧
        (cached_call ttl provider now2 key
          (cached_call ttl provider now1 key st).2.1).2.2 = true)) := by
  refine ⟨⟨rfl, rfl, rfl⟩, ?_, ?_⟩
  · intro κ α instB ttl provider key st now e hl
    constructor
    · intro hv
      simp only [cached_call, hl]
      rw [if_pos hv]
    · intro hv
      simp only [cached_call, hl]
      rw [if_neg (by omega)]
  · intro κ α instB instL ttl provider key st now1 now2 hlt h
    obtain ⟨h1, h2⟩ := h
    have hsecond : ∀ v : α,
        (cached_call ttl provider now2 key
          ((key, (⟨v, now1⟩ : CacheEntry α)) :: st)).2.2 = false := by
      intro v
      simp only [cached_call, List.lookup_cons, beq_self_eq_true]
      rw [if_pos (by omega)]
    cases hl : st.lookup key with
    | none =>
      have hst1 : (cached_call ttl provider now1 key st).2.1 =
          (key, ⟨provider now1 key, now1⟩) :: st := by
        simp only [cached_call, hl]
      rw [hst1, hsecond (provider now1 key)] at h2
      exact Bool.false_ne_true h2
    | some e =>
      by_cases hv : now1 - e.fetched < ttl
      · have : (cached_call ttl provider now1 key st).2.2 = false := by
          simp only [cached_call, hl]
          rw [if_pos hv]
        rw [this] at h1
        exact Bool.false_ne_true h1
      · have hst1 : (cached_call ttl provider now1 key st).2.1 =
            (key, ⟨provider now1 key, now1⟩) :: st := by
          simp only [cached_call, hl]
          rw [if_neg hv]
        rw [hst1, hsecond (provider now1 key)] at h2
        exact Bool.false_ne_true h2

/-- Witness for C6: a fresh entry served without fetch, an expired entry
refetched with the new value returned, and a back-to-back double lookup
issuing only one fetch. -/
theorem c6_cache_ttl_witness :
    (([(("USD" : String), (⟨42, 0⟩ : CacheEntry ℕ))].lookup "USD" = some ⟨42, 0⟩) ∧
      ((10 : ℕ) - 0 < SYMBOLS_TTL) ∧
      cached_call SYMBOLS_TTL (fun _ _ => 99) 10 "USD" [("USD", ⟨42, 0⟩)] =
        (42, [("USD", ⟨42, 0⟩)], false)) ∧
    ((SYMBOLS_TTL ≤ (1000 : ℕ) - 0) ∧
      cached_call SYMBOLS_TTL (fun t _ => t) 1000 "USD" [("USD", ⟨42, 0⟩)] =
        (1000, [("USD", ⟨1000, 1000⟩), ("USD", ⟨42, 0⟩)], true)) ∧
    (((5 : ℕ) - 0 < SYMBOLS_TTL) ∧
      ¬((cached_call SYMBOLS_TTL (fun t _ => t) 0 "USD"
          ([] : List (String × CacheEntry ℕ))).2.2 = true ∧
        (cached_call SYMBOLS_TTL (fun t _ => t) 5 "USD"
          (cached_call SYMBOLS_TTL (fun t _ => t) 0 "USD"
            ([] : List (String × CacheEntry ℕ))).2.1).2.2 = true)) :=
  ⟨⟨by decide, by decide,
    (c6_cache_ttl.2.1 String ℕ SYMBOLS_TTL (fun _ _ => 99) "USD" [("USD", ⟨42, 0⟩)] 10 ⟨42, 0⟩
      (by decide)).1 (by decide)⟩,
   ⟨by decide,
    (c6_cache_ttl.2.1 String ℕ SYMBOLS_TTL (fun t _ => t) "USD" [("USD", ⟨42, 0⟩)] 1000 ⟨42, 0⟩
      (by decide)).2 (by decide)⟩,
   ⟨by decide,
    c6_cache_ttl.2.2 String ℕ SYMBOLS_TTL (fun t _ => t) "USD" [] 0 5 (by decide)⟩⟩

/-- C1 (code bug evidence): the refresh handler leaves the cache state
unchanged, so after a refresh a lookup within TTL still serves the
previously cached value (42, not the current provider value 99) and issues no
fetch — the claimed invalidation does not happen. -/
theorem c1_refresh_is_noop :
    (∀ (κ α : Type) (st : List (κ × CacheEntry α)), refresh_rates_now st = st) ∧
    cached_call SYMBOLS_TTL (fun _ _ => 99) 10 "USD"
        (refresh_rates_now [(("USD" : String), (⟨42, 0⟩ : CacheEntry ℕ))]) =
      (42, [("USD", ⟨42, 0⟩)], false) ∧
    (42 : ℕ) ≠ 99 := by
  refine ⟨fun κ α st => rfl, by decide, by decide⟩
